import Mathlib

/-!
A shallow embedding of the reconstruction cross-section assembly code of
tomolog-cli: the function `read_recon` of `tomolog_cli/reads.py` and the
method `TomoLog2BM.read_recon` of `tomolog_cli/tomolog_2bm.py`.

The directory of reconstructed tiles is modelled as an association list from
structured file names to optional tiles (`none` marks a file that exists but
fails to decode).  File names follow the repository's naming convention
`{pfx}_{idx:05d}.{extension}` and are modelled as (pfx, idx, extension)
triples; lexical comparison of two such names agrees with byte-wise string
comparison of the rendered names for indices below 100000, which is the
convention the source relies on.  Python integer floor division, `range`,
negative-index semantics of `numpy` row/column access, and the exceptions
raised by each step (ZeroDivisionError, IndexError, ValueError, file errors)
are embedded explicitly; the enclosing `try/except` of each `read_recon`
appears as the wrapper that turns any error into the empty result list.
Length-1 numpy broadcasting on row assignment is not modelled: a row being
written must match the allocated width exactly.
-/

namespace Tomolog

/-- Pixel values of reconstructed tiles (float32 in the source; the claims
only copy and compare pixel values, so integers stand in for the pixel
type). -/
abbrev Pixel := Int

/-- A decoded 2D image tile as returned by the tiff reader: a list of rows. -/
abbrev Tile := List (List Pixel)

/-- One row (or extracted column) of a tile or output array. -/
abbrev Row := List Pixel

/-- A 2D output array (`numpy` array in the source). -/
abbrev Matrix := List (List Pixel)

/-- Extension part of a directory entry name.  The source filters the
directory listing with `x.endswith(('.tif', '.tiff'))`. -/
inductive Ext where
  | tif
  | tiff
  | other (s : String)
deriving DecidableEq

/-- A directory entry following the tile naming convention
`{pfx}_{idx:05d}.{extension}` (section 6 of the spec); `idx` is the numeric
suffix that `split('.')[0].split('_')[1]` parses in the source. -/
structure FName where
  pfx : String
  idx : Int
  ext : Ext
deriving DecidableEq

/-- The Python exceptions the embedded code can raise.  `fileNotFound` and
`corruptTile` carry the name of the offending tile, as the corresponding
Python exceptions carry the file path. -/
inductive Err where
  | fileNotFound (n : FName)
  | corruptTile (n : FName)
  | zeroDivisionError
  | indexError
  | valueError
deriving DecidableEq

/-- Equality of fallible results is decidable, so that concrete runs of the
embedded code can be checked by evaluation. -/
instance {ε α : Type} [DecidableEq ε] [DecidableEq α] : DecidableEq (Except ε α) := fun x y =>
  match x, y with
  | .ok a, .ok b =>
    if h : a = b then .isTrue (h ▸ rfl) else .isFalse (fun hc => h (Except.ok.inj hc))
  | .error e, .error f =>
    if h : e = f then .isTrue (h ▸ rfl) else .isFalse (fun hc => h (Except.error.inj hc))
  | .ok _, .error _ => .isFalse (fun hc => Except.noConfusion hc)
  | .error _, .ok _ => .isFalse (fun hc => Except.noConfusion hc)

/-- Modelled from the spec: the on-disk tile directory consumed by
`utils.read_tiff` and `os.listdir` (the module `tomolog_cli/utils.py` is not
under src/).  An entry `(n, some t)` is a readable tile, `(n, none)` a file
that exists but cannot be decoded; the list order is the order `os.listdir`
returns. -/
abbrev Store := List (FName × Option Tile)

/-- Look a file name up in the directory, first match wins. -/
def lookupStore : Store → FName → Option (Option Tile)
  | [], _ => none
  | p :: ps, n => if p.1 = n then some p.2 else lookupStore ps n

/-- Modelled from the spec: `utils.read_tiff` (not under src/), which per the
spec reads one tile fully and raises on a missing or undecodable file. -/
def read_tiff (store : Store) (n : FName) : Except Err Tile :=
  match lookupStore store n with
  | none => .error (.fileNotFound n)
  | some none => .error (.corruptTile n)
  | some (some t) => .ok t

/-- Byte-wise comparison of character lists, as Python compares strings. -/
def charListLeB : List Char → List Char → Bool
  | [], _ => true
  | _ :: _, [] => false
  | a :: as, b :: bs =>
    if a.val < b.val then true
    else if b.val < a.val then false
    else charListLeB as bs

/-- Byte-wise string comparison, as Python compares strings. -/
def strLeB (a b : String) : Bool := charListLeB a.data b.data

/-- Order on extensions restricted to the filtered listing, which contains
only `.tif` and `.tiff` names; `"tif" < "tiff"` byte-wise. -/
def extLeB : Ext → Ext → Bool
  | .tif, _ => true
  | .tiff, .tif => false
  | .tiff, _ => true
  | .other s, .other t => strLeB s t
  | .other _, _ => false

/-- Lexical order on structured names: it matches byte-wise comparison of the
rendered `{pfx}_{idx:05d}.{extension}` strings under the naming
convention. -/
def nameLeB (a b : FName) : Bool :=
  if a.pfx = b.pfx then
    if a.idx < b.idx then true
    else if b.idx < a.idx then false
    else extLeB a.ext b.ext
  else strLeB a.pfx b.pfx

/-- Insert a name into a lexically sorted list of names. -/
def insertName (x : FName) : List FName → List FName
  | [] => [x]
  | y :: ys => if nameLeB x y then x :: y :: ys else y :: insertName x ys

/-- Stable sort of a name list, the embedding of Python `sorted`. -/
def sortNames : List FName → List FName
  | [] => []
  | x :: xs => insertName x (sortNames xs)

/-- The filter `x.endswith(('.tif', '.tiff'))` applied to one name. -/
def isTiffB (n : FName) : Bool :=
  match n.ext with
  | .tif => true
  | .tiff => true
  | .other _ => false

/-- `sorted(list(filter(lambda x: x.endswith(('.tif', '.tiff')), os.listdir(top))))`
from `TomoLog2BM.read_recon`. -/
def tiffList (store : Store) : List FName :=
  sortNames ((store.map Prod.fst).filter (fun n => isTiffB n))

/-- `list(filter(lambda x: x.endswith(('.tif', '.tiff')), os.listdir(top)))`
from `reads.read_recon` — note: no `sorted` in that variant. -/
def tiffListUnsorted (store : Store) : List FName :=
  (store.map Prod.fst).filter (fun n => isTiffB n)

/-- Python integer floor division `a // b`: ZeroDivisionError when `b = 0`. -/
def pyFdiv (a b : Int) : Except Err Int :=
  if b = 0 then .error .zeroDivisionError else .ok (Int.fdiv a b)

/-- `n` consecutive integers counting up from `a`. -/
def pyRangeAux : Nat → Int → List Int
  | 0, _ => []
  | n + 1, a => a :: pyRangeAux n (a + 1)

/-- Python `range(a, b)` over integers: `a, a+1, ..., b-1`, empty when
`b ≤ a`. -/
def pyRange (a b : Int) : List Int := pyRangeAux (b - a).toNat a

/-- `zz[i]`: numpy row access with negative-index wraparound, IndexError when
out of bounds. -/
def pyRow (zz : Tile) (i : Int) : Except Err Row :=
  if 0 ≤ i ∧ i < (zz.length : Int) then .ok (zz.getD i.toNat [])
  else if -(zz.length : Int) ≤ i ∧ i < 0 then .ok (zz.getD ((zz.length : Int) + i).toNat [])
  else .error .indexError

/-- Second shape dimension of a tile (`shape[1]` of a rectangular array). -/
def shape1 (zz : Tile) : Int := ((zz.headD []).length : Int)

/-- `zz[:, i]`: numpy column access with negative-index wraparound, IndexError
when out of bounds. -/
def pyCol (zz : Tile) (i : Int) : Except Err Row :=
  if 0 ≤ i ∧ i < shape1 zz then .ok (zz.map (fun r => r.getD i.toNat 0))
  else if -(shape1 zz) ≤ i ∧ i < 0 then .ok (zz.map (fun r => r.getD ((shape1 zz) + i).toNat 0))
  else .error .indexError

/-- `m[k, :] = row` on an array allocated with `w` columns: IndexError for a
bad row index (with negative wraparound), ValueError when the row length does
not match the allocated width. -/
def setRow (w : Int) (m : Matrix) (k : Int) (row : Row) : Except Err Matrix :=
  if 0 ≤ k ∧ k < (m.length : Int) then
    (if (row.length : Int) = w then .ok (m.set k.toNat row) else .error .valueError)
  else if -(m.length : Int) ≤ k ∧ k < 0 then
    (if (row.length : Int) = w then .ok (m.set ((m.length : Int) + k).toNat row) else .error .valueError)
  else .error .indexError

/-- `np.zeros((h, w), dtype='float32')`: ValueError on a negative dimension. -/
def zerosM (h w : Int) : Except Err Matrix :=
  if 0 ≤ h ∧ 0 ≤ w then .ok (List.replicate h.toNat (List.replicate w.toNat 0))
  else .error .valueError

/-- Scalar multiplication of an array, for `coeff_rec * x`. -/
def Matrix.smul (c : Int) (m : Matrix) : Matrix :=
  m.map (fun r => r.map (fun v => c * v))

/-- `if self.args.id? == -1: ... = default` followed by use of the field:
the sentinel `-1` selects the default, anything else passes through. -/
def resolveIdx (requested dflt : Int) : Int :=
  if requested = -1 then dflt else requested

/-- The name `f'{pfx}_{j:05}.tiff'` built by the per-tile read paths, with the
hard-coded literal suffix `.tiff`. -/
def tname (pfx : String) (j : Int) : FName := ⟨pfx, j, Ext.tiff⟩

/-- The geometry resolved by `TomoLog2BM.read_recon` before any tile rows are
read: the parsed index range `[zs, ze)`, the stacking height `h`, the in-plane
width `w` and the reconstruction binning factor `b`. -/
structure Geom where
  zs : Int
  ze : Int
  h : Int
  w : Int
  b : Int
deriving DecidableEq

/-- Geometry resolution of `TomoLog2BM.read_recon` (tomolog_2bm.py lines
93-109): sort and filter the listing, parse `z_start` and `z_end` from the
first and last names, `height = z_end - z_start`, probe-read the first tile,
then either the double-FOV branch (`width *= 2; binning_rec = 1`) or
`binning_rec = width // tmp.shape[0]`, and `w = width // binning_rec`,
`h = height`. -/
def resolveGeom (store : Store) (width0 : Int) (dfov : Bool) : Except Err Geom :=
  match tiffList store with
  | [] => .error .indexError
  | f0 :: rest =>
    let zs := f0.idx
    let ze := ((f0 :: rest).getLastD f0).idx + 1
    let hgt := ze - zs
    (read_tiff store f0).bind (fun tmp =>
      let s0 : Int := (tmp.length : Int)
      if dfov then
        (pyFdiv (width0 * 2) 1).bind (fun w => .ok ⟨zs, ze, hgt, w, 1⟩)
      else
        (pyFdiv width0 s0).bind (fun b =>
          (pyFdiv width0 b).bind (fun w => .ok ⟨zs, ze, hgt, w, b⟩)))

/-- One iteration of the per-tile loop shared by both `read_recon` variants:
read tile `j`, copy its row `idy` into output row `j - zs` of the first
accumulator and its column `idx` into output row `j - zs` of the second. -/
def assemble_step (store : Store) (pfx : String) (idy idx zs w : Int)
    (acc : Matrix × Matrix) (j : Int) : Except Err (Matrix × Matrix) :=
  (read_tiff store (tname pfx j)).bind (fun zz =>
    (pyRow zz idy).bind (fun row =>
      (setRow w acc.1 (j - zs) row).bind (fun y1 =>
        (pyCol zz idx).bind (fun col =>
          (setRow w acc.2 (j - zs) col).bind (fun x1 => .ok (y1, x1))))))

/-- The body of the `try` block of `TomoLog2BM.read_recon` (tomolog_2bm.py
lines 92-133): resolve geometry, default each of `idz`, `idy`, `idx` to the
midpoint when the caller passed the sentinel `-1`, read the depth tile, then
assemble the row and column sections over `range(z_start, z_end)`.  The
result is `(coeff_rec*x, coeff_rec*y, coeff_rec*z, binning_rec)` with
`coeff_rec = 1`. -/
def read_recon_2bm_core (store : Store) (width0 : Int) (dfov : Bool)
    (aidx aidy aidz : Int) : Except Err (Matrix × Matrix × Matrix × Int) :=
  (resolveGeom store width0 dfov).bind (fun g =>
    let idz := resolveIdx aidz (Int.fdiv g.h 2)
    let idy := resolveIdx aidy (Int.fdiv g.w 2)
    let idx := resolveIdx aidx (Int.fdiv g.w 2)
    (read_tiff store (tname "recon" idz)).bind (fun z =>
      (zerosM g.h g.w).bind (fun y0 =>
        (zerosM g.h g.w).bind (fun x0 =>
          ((pyRange g.zs g.ze).foldlM (assemble_step store "recon" idy idx g.zs g.w) (y0, x0)).bind
            (fun yx => .ok (Matrix.smul 1 yx.2, Matrix.smul 1 yx.1, Matrix.smul 1 z, g.b))))))

/-- `TomoLog2BM.read_recon` with its enclosing `try/except`: any error makes
it skip the reconstruction and return the empty list. -/
def read_recon_2bm (store : Store) (width0 : Int) (dfov : Bool)
    (aidx aidy aidz : Int) : List Matrix :=
  match read_recon_2bm_core store width0 dfov aidx aidy aidz with
  | .ok (x, y, z, _) => [x, y, z]
  | .error _ => []

/-- Geometry and slice-index resolution of `reads.read_recon` (reads.py lines
109-134): the listing is filtered but NOT sorted, `z_start`/`z_end` are parsed
from its first and last entries, `binning_rec = width // tmp.shape[0]`,
`w = width // binning_rec`, `h = height // binning_rec`, and the three slice
indices are unconditionally overwritten with `h//2 + shift` / `w//2 + shift`
(`shift = 0`), discarding the caller-supplied `args.idx/idy/idz`. -/
def reads_resolve (store : Store) (width0 : Int) (_recType : String)
    (_aidx _aidy _aidz : Int) : Except Err (Geom × Int × Int × Int) :=
  match tiffListUnsorted store with
  | [] => .error .indexError
  | f0 :: rest =>
    let zs := f0.idx
    let ze := ((f0 :: rest).getLastD f0).idx + 1
    let hgt := ze - zs
    (read_tiff store f0).bind (fun tmp =>
      let s0 : Int := (tmp.length : Int)
      (pyFdiv width0 s0).bind (fun b =>
        (pyFdiv width0 b).bind (fun w =>
          (pyFdiv hgt b).bind (fun h =>
            let shift : Int := 0
            let idz := Int.fdiv h 2 + shift
            let idy := Int.fdiv w 2 + shift
            let idx := Int.fdiv w 2 + shift
            .ok (⟨zs, ze, h, w, b⟩, idx, idy, idz)))))

/-- The body of the `try` block of `reads.read_recon` (reads.py lines
106-148): resolve geometry and indices, read the depth tile (prefix `'r'`
unless `rec_type == 'rec'`), then assemble the sections over
`range(z_start, z_end // binning_rec)`. -/
def read_recon_reads_core (store : Store) (width0 : Int) (recType : String)
    (aidx aidy aidz : Int) : Except Err (Matrix × Matrix × Matrix × Int) :=
  (reads_resolve store width0 recType aidx aidy aidz).bind (fun r =>
    let g := r.1
    let idx := r.2.1
    let idy := r.2.2.1
    let idz := r.2.2.2
    let pfx := if recType = "rec" then "recon" else "r"
    (read_tiff store (tname pfx idz)).bind (fun z =>
      (zerosM g.h g.w).bind (fun y0 =>
        (zerosM g.h g.w).bind (fun x0 =>
          (pyFdiv g.ze g.b).bind (fun bound =>
            ((pyRange g.zs bound).foldlM (assemble_step store pfx idy idx g.zs g.w) (y0, x0)).bind
              (fun yx => .ok (yx.2, yx.1, z, g.b)))))))

/-- `reads.read_recon` with its enclosing `try/except`: any error makes it
skip the reconstruction and return the empty list of cross-sections. -/
def read_recon_reads (store : Store) (width0 : Int) (recType : String)
    (aidx aidy aidz : Int) : List Matrix :=
  match read_recon_reads_core store width0 recType aidx aidy aidz with
  | .ok (x, y, z, _) => [x, y, z]
  | .error _ => []

/-- A square synthetic tile of side `n` whose every pixel is `v`. -/
def tileN (n : Nat) (v : Pixel) : Tile :=
  List.replicate n (List.replicate n v)

/-- Synthetic tile set for C1: tiles `r_00000.tiff` .. `r_00003.tiff`, each a
2x2 tile whose constant content is its own index; raw width 8 gives
`binning_rec = 4`. -/
def stC1 : Store :=
  [(⟨"r", 0, Ext.tiff⟩, some (tileN 2 0)), (⟨"r", 1, Ext.tiff⟩, some (tileN 2 1)),
   (⟨"r", 2, Ext.tiff⟩, some (tileN 2 2)), (⟨"r", 3, Ext.tiff⟩, some (tileN 2 3))]

/-- Tile set for C2's counterexample: a single non-square probe tile with 2
rows and 4 columns. -/
def stC2 : Store :=
  [(⟨"recon", 0, Ext.tiff⟩, some [[5, 5, 5, 5], [5, 5, 5, 5]])]

/-- Tile set for C3: two tiles whose directory listing order is reversed
(`os.listdir` gives `r_00149.tiff` before `r_00100.tiff`). -/
def stC3 : Store :=
  [(⟨"r", 149, Ext.tiff⟩, some (tileN 2 149)), (⟨"r", 100, Ext.tiff⟩, some (tileN 2 100))]

/-- Tile set for C4: tiles numbered 100..103, each 4x4, raw width 8, so the
reconstruction binning factor is 2. -/
def stC4 : Store :=
  [(⟨"r", 100, Ext.tiff⟩, some (tileN 4 100)), (⟨"r", 101, Ext.tiff⟩, some (tileN 4 101)),
   (⟨"r", 102, Ext.tiff⟩, some (tileN 4 102)), (⟨"r", 103, Ext.tiff⟩, some (tileN 4 103))]

/-- Tile set for C5: two 2x2 tiles, raw width 4. -/
def stC5 : Store :=
  [(⟨"r", 0, Ext.tiff⟩, some (tileN 2 0)), (⟨"r", 1, Ext.tiff⟩, some (tileN 2 1))]

/-- Tile set for C7's witness: tiles `recon_00000.tiff` and `recon_00001.tiff`,
2x2 each, raw width 4. -/
def stC7 : Store :=
  [(⟨"recon", 0, Ext.tiff⟩, some (tileN 2 0)), (⟨"recon", 1, Ext.tiff⟩, some (tileN 2 1))]

/-- Tile set with a gap for C6 and C8: tiles numbered 0, 2, 3 (suffix 1 is
missing), 2x2 each, raw width 4. -/
def stGap : Store :=
  [(⟨"recon", 0, Ext.tiff⟩, some (tileN 2 0)), (⟨"recon", 2, Ext.tiff⟩, some (tileN 2 2)),
   (⟨"recon", 3, Ext.tiff⟩, some (tileN 2 3))]

/-- Tile set for C8's positive witness: tiles 0 and 1, 2x2 each, raw width
4. -/
def stC8 : Store :=
  [(⟨"recon", 0, Ext.tiff⟩, some (tileN 2 0)), (⟨"recon", 1, Ext.tiff⟩, some (tileN 2 1))]

/-- Tile set for C9: one 2x2 tile, raw width 8. -/
def stC9 : Store :=
  [(⟨"recon", 0, Ext.tiff⟩, some (tileN 2 7))]

/-- Tile set for C10's witness: one tile carrying the `.tif` extension. -/
def stC10 : Store :=
  [(⟨"recon", 0, Ext.tif⟩, some (tileN 2 1))]

/-! Helper lemmas about the fallible-computation combinators. -/

theorem ebind_ok {α β : Type} (a : α) (f : α → Except Err β) :
    (Except.ok a).bind f = f a := rfl

theorem ebind_error {α β : Type} (e0 : Err) (f : α → Except Err β) :
    ((Except.error e0 : Except Err α).bind f : Except Err β) = .error e0 := rfl

theorem bind_ok_elim {α β : Type} {e : Except Err α} {f : α → Except Err β} {b : β}
    (h : e.bind f = .ok b) : ∃ a, e = .ok a ∧ f a = .ok b := by
  cases e with
  | ok a => exact ⟨a, rfl, h⟩
  | error e0 => exact Except.noConfusion h

theorem pyRange_eq_nil {a b : Int} (h : b ≤ a) : pyRange a b = [] := by
  unfold pyRange
  rw [(by omega : (b - a).toNat = 0)]
  rfl

theorem pyRange_eq_cons {a b : Int} (h : a < b) : pyRange a b = a :: pyRange (a + 1) b := by
  unfold pyRange
  rw [(by omega : (b - a).toNat = (b - (a + 1)).toNat + 1)]
  rfl

theorem foldlM_except_nil {β γ : Type} (f : β → γ → Except Err β) (init : β) :
    List.foldlM f init ([] : List γ) = .ok init := rfl

theorem foldlM_except_cons {β γ : Type} (f : β → γ → Except Err β) (init : β) (a : γ)
    (l : List γ) :
    List.foldlM f init (a :: l) = (f init a).bind (fun b => List.foldlM f b l) := by
  rw [List.foldlM_cons]
  rfl

theorem foldlM_mem_error {β γ : Type} {f : β → γ → Except Err β} {l : List γ} {a : γ}
    (ha : a ∈ l) (hf : ∀ b, ∃ e, f b a = .error e) :
    ∀ init r, List.foldlM f init l ≠ .ok r := by
  induction l with
  | nil => cases ha
  | cons c t ih =>
    intro init r h
    rw [foldlM_except_cons] at h
    rcases bind_ok_elim h with ⟨b1, hb1, hrest⟩
    rcases List.mem_cons.mp ha with hac | hat
    · subst hac
      rcases hf init with ⟨e, he⟩
      rw [he] at hb1
      exact Except.noConfusion hb1
    · exact ih hat b1 r hrest

theorem setRow_ok_nonneg {w : Int} {m : Matrix} {k : Int} {row : Row} {m2 : Matrix}
    (hk : 0 ≤ k) (h : setRow w m k row = .ok m2) :
    (row.length : Int) = w ∧ k < (m.length : Int) ∧ m2 = m.set k.toNat row := by
  unfold setRow at h
  by_cases h1 : 0 ≤ k ∧ k < (m.length : Int)
  · rw [if_pos h1] at h
    by_cases h2 : (row.length : Int) = w
    · rw [if_pos h2] at h
      exact ⟨h2, h1.2, (Except.ok.inj h).symm⟩
    · rw [if_neg h2] at h
      exact Except.noConfusion h
  · rw [if_neg h1] at h
    rw [if_neg (by omega)] at h
    exact Except.noConfusion h

theorem getD_set_ne {α : Type} (l : List α) (i k : Nat) (a d : α) (h : i ≠ k) :
    (l.set i a).getD k d = l.getD k d := by
  rw [List.getD_eq_getElem?_getD, List.getD_eq_getElem?_getD, List.getElem?_set_ne h]

theorem getD_set_self {α : Type} (l : List α) (i : Nat) (a d : α) (h : i < l.length) :
    (l.set i a).getD i d = a := by
  rw [List.getD_eq_getElem?_getD, List.getElem?_set_self h]
  rfl

theorem smul_one_eq (m : Matrix) : Matrix.smul 1 m = m := by
  unfold Matrix.smul
  simp

theorem read_tiff_error_name {store : Store} {n : FName} {e : Err}
    (h : read_tiff store n = .error e) :
    e = .fileNotFound n ∨ e = .corruptTile n := by
  unfold read_tiff at h
  cases hl : lookupStore store n with
  | none =>
    rw [hl] at h
    exact Or.inl (Except.error.inj h).symm
  | some o =>
    cases o with
    | none =>
      rw [hl] at h
      exact Or.inr (Except.error.inj h).symm
    | some t =>
      rw [hl] at h
      exact Except.noConfusion h

/-- Inversion of a successful geometry resolution of `TomoLog2BM.read_recon`:
the fields of the returned geometry in terms of the sorted listing and the
probe tile. -/
theorem resolveGeom_ok_inv {store : Store} {width0 : Int} {dfov : Bool} {g : Geom}
    (h : resolveGeom store width0 dfov = .ok g) :
    ∃ f0 rest tmp, tiffList store = f0 :: rest ∧ read_tiff store f0 = .ok tmp ∧
      g.zs = f0.idx ∧ g.ze = ((f0 :: rest).getLastD f0).idx + 1 ∧ g.h = g.ze - g.zs ∧
      ((dfov = true ∧ g.b = 1 ∧ g.w = width0 * 2) ∨
       (dfov = false ∧ (tmp.length : Int) ≠ 0 ∧ g.b = Int.fdiv width0 (tmp.length : Int) ∧
        g.b ≠ 0 ∧ g.w = Int.fdiv width0 g.b)) := by
  unfold resolveGeom at h
  cases htl : tiffList store with
  | nil =>
    rw [htl] at h
    exact Except.noConfusion h
  | cons f0 rest =>
    rw [htl] at h
    refine ⟨f0, rest, ?_⟩
    rcases bind_ok_elim h with ⟨tmp, htmp, h2⟩
    refine ⟨tmp, rfl, htmp, ?_⟩
    cases dfov with
    | true =>
      rw [if_pos rfl] at h2
      rcases bind_ok_elim h2 with ⟨w, hw, h3⟩
      unfold pyFdiv at hw
      rw [if_neg (by omega)] at hw
      have hg := (Except.ok.inj h3).symm
      subst hg
      refine ⟨rfl, rfl, rfl, Or.inl ⟨rfl, rfl, ?_⟩⟩
      rw [← Except.ok.inj hw, Int.fdiv_one]
    | false =>
      rw [if_neg (by simp)] at h2
      rcases bind_ok_elim h2 with ⟨b, hb, h3⟩
      rcases bind_ok_elim h3 with ⟨w, hw, h4⟩
      unfold pyFdiv at hb hw
      by_cases hs0 : (tmp.length : Int) = 0
      · rw [if_pos hs0] at hb
        exact Except.noConfusion hb
      · rw [if_neg hs0] at hb
        have hbv := Except.ok.inj hb
        by_cases hbz : b = 0
        · rw [if_pos hbz] at hw
          exact Except.noConfusion hw
        · rw [if_neg hbz] at hw
          have hwv := Except.ok.inj hw
          have hg := (Except.ok.inj h4).symm
          subst hg
          exact ⟨rfl, rfl, rfl, Or.inr ⟨rfl, hs0, hbv.symm, hbz, hwv.symm⟩⟩

theorem zerosM_ok_inv {h w : Int} {m : Matrix} (hm : zerosM h w = .ok m) :
    0 ≤ h ∧ 0 ≤ w ∧ m = List.replicate h.toNat (List.replicate w.toNat 0) := by
  unfold zerosM at hm
  by_cases hc : 0 ≤ h ∧ 0 ≤ w
  · rw [if_pos hc] at hm
    exact ⟨hc.1, hc.2, (Except.ok.inj hm).symm⟩
  · rw [if_neg hc] at hm
    exact Except.noConfusion hm

/-- Evaluation of `resolveGeom` once the sorted filtered listing is known to
be non-empty. -/
theorem resolveGeom_cons {store : Store} {f0 : FName} {rest : List FName}
    (width0 : Int) (dfov : Bool) (htl : tiffList store = f0 :: rest) :
    resolveGeom store width0 dfov =
      (read_tiff store f0).bind (fun tmp =>
        if dfov then
          (pyFdiv (width0 * 2) 1).bind (fun w =>
            .ok ⟨f0.idx, ((f0 :: rest).getLastD f0).idx + 1,
                 ((f0 :: rest).getLastD f0).idx + 1 - f0.idx, w, 1⟩)
        else
          (pyFdiv width0 (tmp.length : Int)).bind (fun b =>
            (pyFdiv width0 b).bind (fun w =>
              .ok ⟨f0.idx, ((f0 :: rest).getLastD f0).idx + 1,
                   ((f0 :: rest).getLastD f0).idx + 1 - f0.idx, w, b⟩))) := by
  unfold resolveGeom
  rw [htl]

theorem lookup_none_of_no_tiff {store : Store}
    (hext : ∀ p ∈ store, p.1.ext = Ext.tif) {n : FName} (hn : n.ext = Ext.tiff) :
    lookupStore store n = none := by
  induction store with
  | nil => rfl
  | cons p ps ih =>
    have hne : ¬(p.1 = n) := by
      intro hpn
      have h1 := hext p (List.mem_cons_self p ps)
      rw [hpn, hn] at h1
      exact Ext.noConfusion h1
    unfold lookupStore
    rw [if_neg hne]
    exact ih (fun q hq => hext q (List.mem_cons_of_mem p hq))

theorem mem_insertName {x y : FName} {l : List FName} :
    y ∈ insertName x l ↔ y = x ∨ y ∈ l := by
  induction l with
  | nil => simp [insertName]
  | cons a t ih =>
    unfold insertName
    by_cases hc : nameLeB x a
    · rw [if_pos hc]
      simp [List.mem_cons]
    · rw [if_neg hc]
      simp only [List.mem_cons, ih]
      tauto

theorem mem_sortNames {y : FName} {l : List FName} : y ∈ sortNames l ↔ y ∈ l := by
  induction l with
  | nil => simp [sortNames]
  | cons a t ih =>
    unfold sortNames
    rw [mem_insertName]
    simp only [List.mem_cons, ih]

/-! The claims. -/

/-- C1 (code_bug evidence): on the synthetic tile set `stC1` (tiles
`r_00000.tiff` .. `r_00003.tiff`, constant content `j`, raw width 8, so
`binning_rec = 4`), `reads.read_recon` iterates
`range(z_start, z_end//binning_rec) = range(0, 1)` and allocates
`(height//binning_rec) = 1` output row, so the returned row/column sections
have a single row instead of one row per tile; rows for tiles 1..3 are never
produced, contradicting "output row j - z_start is exactly row idy of tile j
for every tile index j from z_start to z_end". -/
theorem c1_reads_loop_truncated :
    read_recon_reads_core stC1 8 "foo" (-1) (-1) (-1) =
      .ok ([[0, 0]], [[0, 0]], [[0, 0], [0, 0]], 4) ∧
    (tiffListUnsorted stC1).length = 4 ∧
    ([[0, 0]] : Matrix).length = 1 ∧ (1 : Nat) ≠ 4 := by
  exact ⟨by decide, by decide, rfl, by decide⟩

/-- C2 (counterexample): on a single non-square probe tile with 2 rows and 4
columns and raw width 8, the code computes `binning_rec = width //
tmp.shape[0] = 8 // 2 = 4`, not `raw_width // probe_tile_width = 8 // 4 = 2`:
the divisor is the tile's first shape dimension (row count), not its
width. -/
theorem c2_counterexample :
    resolveGeom stC2 8 false = .ok ⟨0, 1, 1, 2, 4⟩ ∧
    shape1 [[5, 5, 5, 5], [5, 5, 5, 5]] = 4 ∧
    (⟨0, 1, 1, 2, 4⟩ : Geom).b ≠ Int.fdiv 8 4 := by
  exact ⟨by decide, by decide, by decide⟩

/-- C3 (code_bug evidence): `reads.read_recon` does not sort the filtered
directory listing.  On `stC3`, whose `os.listdir` order is
`[r_00149.tiff, r_00100.tiff]`, it parses `z_start = 149` and
`z_end = 101` (height -48), while the sorted parse of
`TomoLog2BM.read_recon` on the same directory yields `z_start = 100`,
`z_end = 150`, stacking height 50 as the claim states. -/
theorem c3_reads_unsorted_listing :
    reads_resolve stC3 8 "foo" (-1) (-1) (-1) = .ok (⟨149, 101, -12, 2, 4⟩, 1, 1, -6) ∧
    resolveGeom stC3 8 false = .ok ⟨100, 150, 50, 2, 4⟩ ∧
    (149 : Int) ≠ 100 ∧ (101 : Int) - 149 ≠ 50 := by
  exact ⟨by decide, by decide, by decide, by decide⟩

/-- C4 (code_bug evidence): on tiles numbered 100..103 (4x4 tiles, raw width
8, so `binning_rec = 2`), `reads.read_recon` computes the stacking-axis
height as `height // binning_rec = 2` instead of `z_end - z_start = 4`, and
its per-tile loop `range(z_start, z_end // binning_rec) = range(100, 52)` is
empty instead of covering the full range 100..104. -/
theorem c4_reads_stack_height_binned :
    reads_resolve stC4 8 "foo" (-1) (-1) (-1) = .ok (⟨100, 104, 2, 4, 2⟩, 2, 2, 1) ∧
    (⟨100, 104, 2, 4, 2⟩ : Geom).h ≠ (104 : Int) - 100 ∧
    pyRange 100 (Int.fdiv 104 2) = [] ∧
    pyRange 100 104 ≠ [] := by
  exact ⟨by decide, by decide, by decide, by decide⟩

/-- C5 (code_bug evidence): `reads.read_recon` unconditionally overwrites the
caller-supplied slice indices with the midpoints: with overrides
`idx = 10, idy = 11, idz = 12` on `stC5` (w = 2, h = 1) it resolves
`idx = idy = w//2 = 1` and `idz = h//2 = 0`, discarding all three
overrides. -/
theorem c5_reads_overrides_ignored :
    reads_resolve stC5 4 "foo" 10 11 12 = .ok (⟨0, 2, 1, 2, 2⟩, 1, 1, 0) ∧
    ((1 : Int) ≠ 10 ∧ (1 : Int) ≠ 11 ∧ (0 : Int) ≠ 12) := by
  exact ⟨by decide, by decide⟩

/-- C8 (counterexample): on the gapped tile set `stGap` (suffixes 0, 2, 3;
suffix 1 missing), `TomoLog2BM.read_recon` does not produce a shorter
assembled array: its depth-tile read of `recon_00001.tiff` (the default
`idz = h//2 = 2` falls on... ) fails with a file-not-found error and the
whole reconstruction is skipped, returning no cross-sections. -/
theorem c8_counterexample :
    read_recon_2bm_core stGap 4 false (-1) (-1) (-1) =
      .error (.fileNotFound (tname "recon" 1)) ∧
    read_recon_2bm stGap 4 false (-1) (-1) (-1) = [] := by
  exact ⟨by decide, by decide⟩

/-- C9 (counterexample): with raw width 8 and a 2x2 probe tile, the
non-double-FOV geometry has in-plane width `8 // (8 // 2) = 2`, while the
double-FOV geometry has in-plane width `(8*2) // 1 = 16`, which is twice the
raw width but not twice the non-double-FOV in-plane width (`2 * 2 = 4`). -/
theorem c9_counterexample :
    resolveGeom stC9 8 false = .ok ⟨0, 1, 1, 2, 4⟩ ∧
    resolveGeom stC9 8 true = .ok ⟨0, 1, 1, 16, 1⟩ ∧
    (16 : Int) ≠ 2 * 2 := by
  exact ⟨by decide, by decide, by decide⟩

/-- C9 (amended): whenever the caller signals double field-of-view mode, the
resolved geometry has `binning_rec = 1` regardless of the probe tile, and its
in-plane width equals twice the RAW width (not twice the non-double-FOV
in-plane width). -/
theorem c9_double_fov {store : Store} {width0 : Int} {g : Geom}
    (h : resolveGeom store width0 true = .ok g) :
    g.b = 1 ∧ g.w = width0 * 2 := by
  rcases resolveGeom_ok_inv h with ⟨f0, rest, tmp, _, _, _, _, _, hbr⟩
  rcases hbr with ⟨_, hb, hw⟩ | ⟨hf, _⟩
  · exact ⟨hb, hw⟩
  · exact Bool.noConfusion hf

/-- C9 witness: the double-FOV theorem applied to the concrete tile set
`stC9` with raw width 8. -/
theorem c9_double_fov_witness :
    (⟨0, 1, 1, 16, 1⟩ : Geom).b = 1 ∧ (⟨0, 1, 1, 16, 1⟩ : Geom).w = 8 * 2 :=
  @c9_double_fov stC9 8 ⟨0, 1, 1, 16, 1⟩ (by decide)

/-- C2 (amended): for a non-empty tile set, `binning_rec` is computed as
`raw_width // tmp.shape[0]` from the probe tile's FIRST shape dimension (its
row count, not its width); when that dimension is 0 or exceeds the raw width
the geometry resolution fails with the division-by-zero error instead of
returning a geometry, and otherwise it returns `binning_rec ≥ 1`. -/
theorem c2_binning_from_first_dim {store : Store} {f0 : FName} {rest : List FName}
    {tmp : Tile} (width0 : Int) (htl : tiffList store = f0 :: rest)
    (hprobe : read_tiff store f0 = .ok tmp) (hw0 : 0 ≤ width0) :
    ((tmp.length : Int) = 0 ∨ width0 < (tmp.length : Int) →
      resolveGeom store width0 false = .error .zeroDivisionError) ∧
    (0 < (tmp.length : Int) → (tmp.length : Int) ≤ width0 →
      ∃ g, resolveGeom store width0 false = .ok g ∧
        g.b = Int.fdiv width0 (tmp.length : Int) ∧ 1 ≤ g.b) := by
  constructor
  · intro hcase
    rw [resolveGeom_cons width0 false htl, hprobe, ebind_ok, if_neg (by simp)]
    rcases hcase with hs0 | hlt
    · have h1 : pyFdiv width0 (tmp.length : Int) = .error .zeroDivisionError := by
        unfold pyFdiv
        rw [if_pos hs0]
      rw [h1, ebind_error]
    · have hdiv0 : Int.fdiv width0 (tmp.length : Int) = 0 := by
        rw [Int.fdiv_eq_ediv width0 (by omega)]
        exact Int.ediv_eq_zero_of_lt hw0 hlt
      have h1 : pyFdiv width0 (tmp.length : Int) = .ok 0 := by
        unfold pyFdiv
        rw [if_neg (by omega), hdiv0]
      rw [h1, ebind_ok]
      have h2 : pyFdiv width0 0 = .error .zeroDivisionError := by
        unfold pyFdiv
        rw [if_pos rfl]
      rw [h2, ebind_error]
  · intro hpos hle
    have hbge1 : 1 ≤ Int.fdiv width0 (tmp.length : Int) := by
      rw [Int.fdiv_eq_ediv width0 (by omega)]
      rw [Int.le_ediv_iff_mul_le hpos]
      omega
    have h1 : pyFdiv width0 (tmp.length : Int) = .ok (Int.fdiv width0 (tmp.length : Int)) := by
      unfold pyFdiv
      rw [if_neg (by omega)]
    have h2 : pyFdiv width0 (Int.fdiv width0 (tmp.length : Int)) =
        .ok (Int.fdiv width0 (Int.fdiv width0 (tmp.length : Int))) := by
      unfold pyFdiv
      rw [if_neg (by omega)]
    refine ⟨⟨f0.idx, ((f0 :: rest).getLastD f0).idx + 1,
      ((f0 :: rest).getLastD f0).idx + 1 - f0.idx,
      Int.fdiv width0 (Int.fdiv width0 (tmp.length : Int)),
      Int.fdiv width0 (tmp.length : Int)⟩, ?_, rfl, hbge1⟩
    rw [resolveGeom_cons width0 false htl, hprobe, ebind_ok, if_neg (by simp), h1, ebind_ok,
      h2, ebind_ok]

/-- C2 witness: the amended binning theorem applied to the tile set `stC9`
(square 2x2 probe tile, raw width 8), yielding `binning_rec = 8 // 2 = 4`. -/
theorem c2_binning_from_first_dim_witness :
    ∃ g, resolveGeom stC9 8 false = .ok g ∧
      g.b = Int.fdiv 8 ((tileN 2 7).length : Int) ∧ 1 ≤ g.b :=
  (@c2_binning_from_first_dim stC9 ⟨"recon", 0, Ext.tiff⟩ [] (tileN 2 7) 8
    (by decide) (by decide) (by decide)).2 (by decide) (by decide)

/-- C10: for every tile directory in which every file carries the `.tif`
extension (accepted by the listing filter alongside `.tiff`), both
`read_recon` variants skip the reconstruction and return no cross-sections,
because every per-tile read path is built with the hard-coded literal suffix
`.tiff`; the third conjunct records that the filter does accept all the
`.tif` files into the (sorted) listing. -/
theorem c10_tif_extension_skip (store : Store) (width0 : Int) (dfov : Bool)
    (recType : String) (a1 a2 a3 b1 b2 b3 : Int)
    (hext : ∀ p ∈ store, p.1.ext = Ext.tif) :
    read_recon_2bm store width0 dfov a1 a2 a3 = [] ∧
    read_recon_reads store width0 recType b1 b2 b3 = [] ∧
    ∀ p ∈ store, p.1 ∈ tiffList store := by
  have hz : ∀ (pfx : String) (j : Int),
      read_tiff store (tname pfx j) = .error (.fileNotFound (tname pfx j)) := by
    intro pfx j
    unfold read_tiff
    rw [lookup_none_of_no_tiff hext rfl]
  have h2bm : ∃ e, read_recon_2bm_core store width0 dfov a1 a2 a3 = .error e := by
    unfold read_recon_2bm_core
    cases hg : resolveGeom store width0 dfov with
    | error e =>
      exact ⟨e, ebind_error e _⟩
    | ok g =>
      refine ⟨.fileNotFound (tname "recon" (resolveIdx a3 (Int.fdiv g.h 2))), ?_⟩
      rw [ebind_ok]
      dsimp only
      rw [hz "recon" (resolveIdx a3 (Int.fdiv g.h 2)), ebind_error]
  have hreads : ∃ e, read_recon_reads_core store width0 recType b1 b2 b3 = .error e := by
    unfold read_recon_reads_core
    cases hg : reads_resolve store width0 recType b1 b2 b3 with
    | error e =>
      exact ⟨e, ebind_error e _⟩
    | ok r =>
      refine ⟨.fileNotFound (tname (if recType = "rec" then "recon" else "r") r.2.2.2), ?_⟩
      rw [ebind_ok]
      dsimp only
      rw [hz (if recType = "rec" then "recon" else "r") r.2.2.2, ebind_error]
  rcases h2bm with ⟨e1, he1⟩
  rcases hreads with ⟨e2, he2⟩
  refine ⟨?_, ?_, ?_⟩
  · unfold read_recon_2bm
    rw [he1]
  · unfold read_recon_reads
    rw [he2]
  · intro p hp
    unfold tiffList
    rw [mem_sortNames, List.mem_filter]
    refine ⟨List.mem_map.mpr ⟨p, hp, rfl⟩, ?_⟩
    unfold isTiffB
    rw [hext p hp]

/-- C10 witness: a directory with a single `.tif` tile makes both variants
return no cross-sections. -/
theorem c10_tif_extension_skip_witness :
    read_recon_2bm stC10 4 false (-1) (-1) (-1) = [] ∧
    read_recon_reads stC10 4 "foo" (-1) (-1) (-1) = [] ∧
    ∀ p ∈ stC10, p.1 ∈ tiffList stC10 :=
  c10_tif_extension_skip stC10 4 false "foo" (-1) (-1) (-1) (-1) (-1) (-1) (by decide)

/-- C6: if any tile inside the assembly range is unreadable or corrupt, the
whole assembly of `TomoLog2BM.read_recon` aborts: the core returns an error
(never a partial result), the wrapper returns no cross-sections, and the
error raised by the failing read names the offending tile (whose name carries
the index). -/
theorem c6_abort_on_bad_tile {store : Store} {width0 : Int} {dfov : Bool}
    {aidx aidy aidz j : Int} {g : Geom} {e0 : Err}
    (hg : resolveGeom store width0 dfov = .ok g)
    (hj : j ∈ pyRange g.zs g.ze)
    (hfail : read_tiff store (tname "recon" j) = .error e0) :
    (∃ e, read_recon_2bm_core store width0 dfov aidx aidy aidz = .error e) ∧
    read_recon_2bm store width0 dfov aidx aidy aidz = [] ∧
    (e0 = .fileNotFound (tname "recon" j) ∨ e0 = .corruptTile (tname "recon" j)) := by
  have hthird := read_tiff_error_name hfail
  have hne : ∀ r, read_recon_2bm_core store width0 dfov aidx aidy aidz ≠ .ok r := by
    intro r hcore
    unfold read_recon_2bm_core at hcore
    rw [hg, ebind_ok] at hcore
    rcases bind_ok_elim hcore with ⟨z, hzz, h2⟩
    rcases bind_ok_elim h2 with ⟨y0, hy0, h3⟩
    rcases bind_ok_elim h3 with ⟨x0, hx0, h4⟩
    rcases bind_ok_elim h4 with ⟨yx, hyx, h5⟩
    refine foldlM_mem_error hj ?_ (y0, x0) yx hyx
    intro bacc
    unfold assemble_step
    rw [hfail, ebind_error]
    exact ⟨e0, rfl⟩
  cases hc : read_recon_2bm_core store width0 dfov aidx aidy aidz with
  | ok r => exact absurd hc (hne r)
  | error e =>
    refine ⟨⟨e, rfl⟩, ?_, hthird⟩
    unfold read_recon_2bm
    rw [hc]

/-- C6 witness: on the gapped tile set `stGap`, tile index 1 lies inside the
range `[0, 4)` but has no backing file, so the assembly aborts with no
cross-sections. -/
theorem c6_abort_on_bad_tile_witness :
    (∃ e, read_recon_2bm_core stGap 4 false (-1) (-1) (-1) = .error e) ∧
    read_recon_2bm stGap 4 false (-1) (-1) (-1) = [] ∧
    (Err.fileNotFound (tname "recon" 1) = .fileNotFound (tname "recon" 1) ∨
     Err.fileNotFound (tname "recon" 1) = .corruptTile (tname "recon" 1)) :=
  @c6_abort_on_bad_tile stGap 4 false (-1) (-1) (-1) 1 ⟨0, 4, 4, 2, 2⟩
    (.fileNotFound (tname "recon" 1)) (by decide) (by decide) (by decide)

/-- C7: if the requested (non-sentinel) `idy` is at least the first tile's
row count, or the requested `idx` is at least its column count, the first
loop iteration of `TomoLog2BM.read_recon` raises IndexError: the core returns
`indexError` (no clamping) and the wrapper returns no cross-sections, so no
partially-written output array escapes. -/
theorem c7_index_out_of_range {store : Store} {width0 : Int} {dfov : Bool}
    {aidx aidy aidz : Int} {g : Geom} {zt zz : Tile}
    (hg : resolveGeom store width0 dfov = .ok g)
    (hnz : g.zs < g.ze)
    (hh : 0 ≤ g.h) (hw : 0 ≤ g.w)
    (hz : read_tiff store (tname "recon" (resolveIdx aidz (Int.fdiv g.h 2))) = .ok zt)
    (hfirst : read_tiff store (tname "recon" g.zs) = .ok zz)
    (hbad : (aidy ≠ -1 ∧ (zz.length : Int) ≤ aidy) ∨
            (aidx ≠ -1 ∧ shape1 zz ≤ aidx ∧
             ∃ row, pyRow zz (resolveIdx aidy (Int.fdiv g.w 2)) = .ok row ∧
               (row.length : Int) = g.w)) :
    read_recon_2bm_core store width0 dfov aidx aidy aidz = .error .indexError ∧
    read_recon_2bm store width0 dfov aidx aidy aidz = [] := by
  have hhfield : g.h = g.ze - g.zs := by
    rcases resolveGeom_ok_inv hg with ⟨_, _, _, _, _, _, _, hf, _⟩
    exact hf
  have hhpos : 0 < g.h := by omega
  have hzeros : zerosM g.h g.w =
      .ok (List.replicate g.h.toNat (List.replicate g.w.toNat 0)) := by
    unfold zerosM
    rw [if_pos ⟨hh, hw⟩]
  have hstep : ∀ acc : Matrix × Matrix, acc.1.length = g.h.toNat →
      assemble_step store "recon" (resolveIdx aidy (Int.fdiv g.w 2))
        (resolveIdx aidx (Int.fdiv g.w 2)) g.zs g.w acc g.zs = .error .indexError := by
    intro acc hlen
    unfold assemble_step
    rw [hfirst, ebind_ok]
    rcases hbad with ⟨hny, hylen⟩ | ⟨hnx, hxsh, row, hrow, hrlen⟩
    · have hI : resolveIdx aidy (Int.fdiv g.w 2) = aidy := if_neg hny
      rw [hI]
      have hpr : pyRow zz aidy = .error .indexError := by
        unfold pyRow
        rw [if_neg (by omega), if_neg (by omega)]
      rw [hpr, ebind_error]
    · rw [hrow, ebind_ok]
      have hset : setRow g.w acc.1 (g.zs - g.zs) row = .ok (acc.1.set 0 row) := by
        unfold setRow
        rw [(by omega : g.zs - g.zs = (0 : Int))]
        rw [if_pos ⟨le_refl 0, by rw [hlen]; omega⟩, if_pos hrlen]
        rfl
      rw [hset, ebind_ok]
      have hX : resolveIdx aidx (Int.fdiv g.w 2) = aidx := if_neg hnx
      rw [hX]
      have hsh0 : 0 ≤ shape1 zz := by
        unfold shape1
        exact Int.natCast_nonneg _
      have hpc : pyCol zz aidx = .error .indexError := by
        unfold pyCol
        rw [if_neg (by omega), if_neg (by omega)]
      rw [hpc, ebind_error]
  have hcoreEq : read_recon_2bm_core store width0 dfov aidx aidy aidz =
      .error .indexError := by
    unfold read_recon_2bm_core
    rw [hg, ebind_ok]
    dsimp only
    rw [hz, ebind_ok]
    rw [hzeros, ebind_ok, ebind_ok]
    rw [pyRange_eq_cons hnz, foldlM_except_cons]
    rw [hstep (List.replicate g.h.toNat (List.replicate g.w.toNat 0),
         List.replicate g.h.toNat (List.replicate g.w.toNat 0)) (by simp)]
    exact ebind_error _ _
  refine ⟨hcoreEq, ?_⟩
  unfold read_recon_2bm
  rw [hcoreEq]

/-- C7 witness: on `stC7` (2x2 tiles) requesting `idy = 5` (beyond the tile
extent 2) makes the core fail with IndexError and the wrapper return no
cross-sections. -/
theorem c7_index_out_of_range_witness :
    read_recon_2bm_core stC7 4 false (-1) 5 (-1) = .error .indexError ∧
    read_recon_2bm stC7 4 false (-1) 5 (-1) = [] :=
  @c7_index_out_of_range stC7 4 false (-1) 5 (-1) ⟨0, 2, 2, 2, 2⟩ (tileN 2 1) (tileN 2 0)
    (by decide) (by decide) (by decide) (by decide) (by decide) (by decide)
    (Or.inl ⟨by decide, by decide⟩)

/-- Invariant of the per-tile assembly loop of `TomoLog2BM.read_recon`: a
successful fold over `range(j, ze)` leaves rows outside `[j - zs, ze - zs)`
untouched and fills each row `k` inside it with the `idy`-row (first
accumulator) and the `idx`-column (second accumulator) of the tile whose
numeric suffix is `zs + k`. -/
theorem fold_spec {store : Store} {pfx : String} {idyR idxR zs w ze : Int} :
    ∀ (n : Nat) (j : Int) (acc out : Matrix × Matrix),
      zs ≤ j → (ze - j).toNat = n →
      List.foldlM (assemble_step store pfx idyR idxR zs w) acc (pyRange j ze) = .ok out →
      out.1.length = acc.1.length ∧ out.2.length = acc.2.length ∧
      (∀ k : Nat, ((k : Int) < j - zs ∨ ze - zs ≤ (k : Int)) →
        out.1.getD k [] = acc.1.getD k [] ∧ out.2.getD k [] = acc.2.getD k []) ∧
      (∀ k : Nat, j - zs ≤ (k : Int) → (k : Int) < ze - zs →
        ∃ zz row col, read_tiff store (tname pfx (zs + (k : Int))) = .ok zz ∧
          pyRow zz idyR = .ok row ∧ out.1.getD k [] = row ∧
          pyCol zz idxR = .ok col ∧ out.2.getD k [] = col) := by
  intro n
  induction n with
  | zero =>
    intro j acc out hzsj hn hfold
    rw [pyRange_eq_nil (by omega), foldlM_except_nil] at hfold
    obtain rfl : acc = out := Except.ok.inj hfold
    exact ⟨rfl, rfl, fun k _ => ⟨rfl, rfl⟩, fun k hk1 hk2 => absurd hk2 (by omega)⟩
  | succ n ih =>
    intro j acc out hzsj hn hfold
    have hjlt : j < ze := by omega
    rw [pyRange_eq_cons hjlt, foldlM_except_cons] at hfold
    rcases bind_ok_elim hfold with ⟨acc1, hstep, hrest⟩
    unfold assemble_step at hstep
    rcases bind_ok_elim hstep with ⟨zz, hzz, hs2⟩
    rcases bind_ok_elim hs2 with ⟨row, hrow, hs3⟩
    rcases bind_ok_elim hs3 with ⟨y1, hy1, hs4⟩
    rcases bind_ok_elim hs4 with ⟨col, hcol, hs5⟩
    rcases bind_ok_elim hs5 with ⟨x1, hx1, hs6⟩
    obtain rfl : (y1, x1) = acc1 := Except.ok.inj hs6
    rcases setRow_ok_nonneg (by omega) hy1 with ⟨hrl, hky, hy1e⟩
    rcases setRow_ok_nonneg (by omega) hx1 with ⟨hcl, hkx, hx1e⟩
    subst hy1e
    subst hx1e
    have ihres := ih (j + 1)
      (acc.1.set (j - zs).toNat row, acc.2.set (j - zs).toNat col) out
      (by omega) (by omega) hrest
    rcases ihres with ⟨hl1, hl2, hpres, hextr⟩
    refine ⟨?_, ?_, ?_, ?_⟩
    · rw [hl1]
      exact List.length_set _ _ _
    · rw [hl2]
      exact List.length_set _ _ _
    · intro k hk
      rcases hpres k (by omega) with ⟨hp1, hp2⟩
      have hne : (j - zs).toNat ≠ k := by omega
      constructor
      · rw [hp1]
        exact getD_set_ne _ _ _ _ _ hne
      · rw [hp2]
        exact getD_set_ne _ _ _ _ _ hne
    · intro k hk1 hk2
      by_cases hkj : (k : Int) = j - zs
      · rcases hpres k (Or.inl (by omega)) with ⟨hp1, hp2⟩
        have hkn : (j - zs).toNat = k := by omega
        refine ⟨zz, row, col, ?_, hrow, ?_, hcol, ?_⟩
        · rw [(by omega : zs + (k : Int) = j)]
          exact hzz
        · rw [hp1, hkn]
          exact getD_set_self _ _ _ _ (by omega)
        · rw [hp2, hkn]
          exact getD_set_self _ _ _ _ (by omega)
      · exact hextr k (by omega) hk2

/-- C8 (amended): whenever the assembly of `TomoLog2BM.read_recon` succeeds,
both assembled sections have exactly `z_end - z_start` rows and output row
`k` holds the `idy`-row (respectively `idx`-column) of the tile with numeric
suffix `z_start + k` — the iteration is over the numeric range parsed from
the first and last sorted filenames, so a gap inside that range makes the
assembly abort with an error (see the counterexample) instead of producing a
shorter array. -/
theorem c8_rows_correspond {store : Store} {width0 : Int} {dfov : Bool}
    {aidx aidy aidz : Int} {res : Matrix × Matrix × Matrix × Int} {g : Geom}
    (hres : read_recon_2bm_core store width0 dfov aidx aidy aidz = .ok res)
    (hg : resolveGeom store width0 dfov = .ok g) :
    res.2.1.length = (g.ze - g.zs).toNat ∧ res.1.length = (g.ze - g.zs).toNat ∧
    ∀ k : Nat, (k : Int) < g.ze - g.zs →
      ∃ zz row col, read_tiff store (tname "recon" (g.zs + (k : Int))) = .ok zz ∧
        pyRow zz (resolveIdx aidy (Int.fdiv g.w 2)) = .ok row ∧ res.2.1.getD k [] = row ∧
        pyCol zz (resolveIdx aidx (Int.fdiv g.w 2)) = .ok col ∧ res.1.getD k [] = col := by
  have hhfield : g.h = g.ze - g.zs := by
    rcases resolveGeom_ok_inv hg with ⟨_, _, _, _, _, _, _, hf, _⟩
    exact hf
  unfold read_recon_2bm_core at hres
  rw [hg, ebind_ok] at hres
  rcases bind_ok_elim hres with ⟨zt, hzt, h2⟩
  rcases bind_ok_elim h2 with ⟨y0, hy0, h3⟩
  rcases bind_ok_elim h3 with ⟨x0, hx0, h4⟩
  rcases bind_ok_elim h4 with ⟨yx, hyx, h5⟩
  have hres2 : res = (Matrix.smul 1 yx.2, Matrix.smul 1 yx.1, Matrix.smul 1 zt, g.b) :=
    (Except.ok.inj h5).symm
  subst hres2
  rcases zerosM_ok_inv hy0 with ⟨hh, hw, hy0e⟩
  rcases zerosM_ok_inv hx0 with ⟨_, _, hx0e⟩
  subst hy0e
  subst hx0e
  have hfs := @fold_spec store "recon" (resolveIdx aidy (Int.fdiv g.w 2))
      (resolveIdx aidx (Int.fdiv g.w 2)) g.zs g.w g.ze (g.ze - g.zs).toNat g.zs
      (List.replicate g.h.toNat (List.replicate g.w.toNat 0),
       List.replicate g.h.toNat (List.replicate g.w.toNat 0)) yx
      (le_refl g.zs) rfl hyx
  rcases hfs with ⟨hl1, hl2, _, hextr⟩
  refine ⟨?_, ?_, ?_⟩
  · dsimp only
    rw [smul_one_eq, hl1]
    dsimp only
    rw [List.length_replicate]
    omega
  · dsimp only
    rw [smul_one_eq, hl2]
    dsimp only
    rw [List.length_replicate]
    omega
  · intro k hk
    rcases hextr k (by omega) (by omega) with ⟨zz, row, col, h1, h2r, h3r, h4c, h5c⟩
    refine ⟨zz, row, col, h1, h2r, ?_, h4c, ?_⟩
    · dsimp only
      rw [smul_one_eq]
      exact h3r
    · dsimp only
      rw [smul_one_eq]
      exact h5c

/-- C8 witness: the correspondence theorem applied to a successful concrete
assembly over `stC8` (tiles 0 and 1). -/
theorem c8_rows_correspond_witness :
    (([[0, 0], [1, 1]], [[0, 0], [1, 1]], [[1, 1], [1, 1]], (2 : Int)) :
        Matrix × Matrix × Matrix × Int).2.1.length = ((2 : Int) - 0).toNat :=
  (@c8_rows_correspond stC8 4 false (-1) (-1) (-1)
    ([[0, 0], [1, 1]], [[0, 0], [1, 1]], [[1, 1], [1, 1]], 2) ⟨0, 2, 2, 2, 2⟩
    (by decide) (by decide)).1

end Tomolog
